import Mathlib

/-!
Verification of the deepwiki-pp heading-section extraction engine.

This file gives a shallow embedding, in Lean 4, of the TypeScript sources of
the deepwiki-pp browser extension (heading-section entity, heading parser,
section validator, button overlay manager, SPA monitor, content-script
orchestrator and the add-heading-section use case), together with theorems
settling the specification claims about them.

Modelling conventions:
* JS strings are Lean `String`s (character sequences); dedicated `js...`
  helpers model `trim`, `toUpperCase`, `toLowerCase` and the regex
  replacements by structural recursion over the character list.
* JS numbers holding heading levels are `Int`; array indices are `Nat`.
* Fallible code (`throw` in TS) is modelled with `Except`.
* Browser platform primitives that are not part of the repository
  (the WHATWG URL parser behind `new URL`, `Date.now()`, `Math.random()`)
  are abstracted into a `JsEnv` record of parameters.
* The DOM is modelled where needed: a content container is the flat list of
  its child elements, each child carrying its tag name, text content and
  serialized outer markup.
-/

namespace DeepWikiPP

/-! ## JS string and number helpers -/

/-- Decimal digit character for `n`; models how JS stringifies a digit. -/
def digitChar (n : Nat) : Char :=
  if n = 0 then '0' else if n = 1 then '1' else if n = 2 then '2'
  else if n = 3 then '3' else if n = 4 then '4' else if n = 5 then '5'
  else if n = 6 then '6' else if n = 7 then '7' else if n = 8 then '8'
  else '9'

/-- Numeric value of a decimal digit character. -/
def digitVal (c : Char) : Nat := c.toNat - 48

/-- Fuelled decimal rendering of a natural number (most significant first). -/
def natToDecAux : Nat → Nat → List Char
  | 0, _ => []
  | fuel + 1, n =>
    if n < 10 then [digitChar n]
    else natToDecAux fuel (n / 10) ++ [digitChar (n % 10)]

/-- Decimal digit list of a natural number, as JS template interpolation renders it. -/
def natToDecL (n : Nat) : List Char := natToDecAux (n + 1) n

/-- Decimal string of a natural number. -/
def natToDec (n : Nat) : String := String.mk (natToDecL n)

/-- Value of a decimal digit list (inverse of `natToDecL`). -/
def decVal (l : List Char) : Nat := l.foldl (fun a c => a * 10 + digitVal c) 0

/-- Decimal rendering of a JS number holding an integer. -/
def jsIntToString (i : Int) : String :=
  if i < 0 then "-" ++ natToDec i.natAbs else natToDec i.natAbs

/-- Models `String.prototype.trim` by structural recursion (kernel-reducible,
unlike the positional core `String.trim`). -/
def jsTrim (s : String) : String :=
  String.mk (((s.data.dropWhile Char.isWhitespace).reverse.dropWhile Char.isWhitespace).reverse)

/-- Models `String.prototype.toUpperCase` on ASCII text. -/
def jsToUpper (s : String) : String := String.mk (s.data.map Char.toUpper)

/-- Models `String.prototype.toLowerCase` on ASCII text. -/
def jsToLower (s : String) : String := String.mk (s.data.map Char.toLower)

/-- Replaces every maximal run of whitespace by the single character `rep`;
the `Bool` flag records whether the previous character was whitespace.
Models the JS regex replacement of a global whitespace-run pattern. -/
def replaceWsRuns (rep : Char) : Bool → List Char → List Char
  | _, [] => []
  | prevWs, c :: rest =>
    if c.isWhitespace then
      if prevWs then replaceWsRuns rep true rest
      else rep :: replaceWsRuns rep true rest
    else c :: replaceWsRuns rep false rest

/-- Collapses every maximal run of hyphens to a single hyphen. -/
def collapseHyphenRuns : Bool → List Char → List Char
  | _, [] => []
  | prevHy, c :: rest =>
    if c = '-' then
      if prevHy then collapseHyphenRuns true rest
      else '-' :: collapseHyphenRuns true rest
    else c :: collapseHyphenRuns false rest

/-- Removes leading and trailing hyphens (the JS anchored hyphen-run replacement). -/
def trimHyphens (l : List Char) : List Char :=
  ((l.dropWhile (fun c => c = '-')).reverse.dropWhile (fun c => c = '-')).reverse

/-- JS regex word character class: ASCII letters, digits and underscore. -/
def jsWordChar (c : Char) : Bool :=
  (('a' ≤ c) && (c ≤ 'z')) || (('A' ≤ c) && (c ≤ 'Z')) ||
  (('0' ≤ c) && (c ≤ '9')) || (c = '_')

/-! ## Platform environment

The entity layer calls two browser built-ins that are not part of the
repository: the WHATWG URL parser (`new URL(u)` throws on an invalid URL and
otherwise exposes `hostname`), and the clock / RNG used for unique id
suffixes.  They are abstracted as parameters. -/

/-- Abstraction of the browser platform primitives used by the entity layer:
`parseUrlHost u` is `some hostname` when `new URL(u)` succeeds and `none`
when it throws; `now` models `new Date()`; `ts36` and `rand4` model the
base-36 timestamp and random suffix strings. -/
structure JsEnv where
  parseUrlHost : String → Option String
  now : Nat
  ts36 : String
  rand4 : String

/-! ## heading-section.ts : the HeadingSection entity -/

def MIN_HEADING_LEVEL : Int := 1
def MAX_HEADING_LEVEL : Int := 6

/-- The `HeadingSection` domain entity (src/domain/heading-collection/heading-section.ts). -/
structure HeadingSection where
  level : Int
  tagName : String
  titleText : String
  contentHtml : String
  sourceUrl : String
  addedAt : Nat
  sectionId : String
deriving DecidableEq, Repr

/-- Domain errors thrown by the entity and parser layer. -/
inductive DomainErr where
  | validation (msg : String)
  | parse (msg : String)
deriving DecidableEq, Repr

/-- Message carried by a domain error. -/
def DomainErr.message : DomainErr → String
  | .validation m => m
  | .parse m => m

/-- `isValidHeadingLevel` from heading-section.ts. -/
def isValidHeadingLevel (level : Int) : Bool :=
  MIN_HEADING_LEVEL ≤ level && level ≤ MAX_HEADING_LEVEL

/-- `getHeadingLevelFromTag`: extracts the level from a heading tag name via the
uppercased anchored `H[1-6]` pattern. -/
def getHeadingLevelFromTag (tagName : String) : Option Int :=
  let up := jsToUpper tagName
  if up = "H1" then some 1 else if up = "H2" then some 2
  else if up = "H3" then some 3 else if up = "H4" then some 4
  else if up = "H5" then some 5 else if up = "H6" then some 6
  else none

/-- `validateHeadingLevel` (throwing is modelled with `Except.error`). -/
def validateHeadingLevelE (level : Int) : Except DomainErr Unit :=
  if isValidHeadingLevel level then .ok ()
  else .error (.validation ("Invalid heading level: " ++ jsIntToString level))

/-- `validateTagName`: the uppercased tag must equal `"H" + level`. -/
def validateTagNameE (tagName : String) (level : Int) : Except DomainErr Unit :=
  if jsToUpper tagName = "H" ++ jsIntToString level then .ok ()
  else .error (.validation ("Tag name " ++ tagName ++ " does not match level " ++ jsIntToString level))

/-- `validateRequiredFields`: non-empty trimmed title, content and URL, and the
URL must parse (`new URL` must not throw). -/
def validateRequiredFieldsE (env : JsEnv) (titleText contentHtml sourceUrl : String) :
    Except DomainErr Unit :=
  if jsTrim titleText = "" then .error (.validation "Title text is required")
  else if jsTrim contentHtml = "" then .error (.validation "Content HTML is required")
  else if jsTrim sourceUrl = "" then .error (.validation "Source URL is required")
  else
    match env.parseUrlHost sourceUrl with
    | some _ => .ok ()
    | none => .error (.validation ("Invalid source URL: " ++ sourceUrl))

/-- Strips a leading `www.` (the anchored `www.` replacement). -/
def dropLeadingWww (s : String) : String :=
  match s.data with
  | 'w' :: 'w' :: 'w' :: '.' :: rest => String.mk rest
  | _ => s

/-- Maps every character outside `[\w-]` to a hyphen. -/
def hyphenizeNonWord (s : String) : String :=
  String.mk (s.data.map (fun c => if jsWordChar c || c = '-' then c else '-'))

/-- Keeps only word characters, whitespace and hyphens. -/
def keepWordWsHyphen (s : String) : String :=
  String.mk (s.data.filter (fun c => jsWordChar c || c.isWhitespace || c = '-'))

/-- `generateUniqueSectionId` from heading-section.ts: hostname + level + title
slug + timestamp + random suffix, with a fallback when URL parsing throws. -/
def generateUniqueSectionId (env : JsEnv) (sourceUrl : String) (level : Int)
    (titleText : String) : String :=
  match env.parseUrlHost sourceUrl with
  | some rawHost =>
    let hostname := jsToLower (hyphenizeNonWord (dropLeadingWww rawHost))
    let titleSlug := String.mk
      ((trimHyphens (collapseHyphenRuns false
        (replaceWsRuns '-' false (keepWordWsHyphen (jsToLower (jsTrim titleText))).data))).take 30)
    hostname ++ "-h" ++ jsIntToString level ++ "-" ++ titleSlug ++ "-" ++ env.ts36 ++ "-" ++ env.rand4
  | none =>
    let fallbackSlug := String.mk ((hyphenizeNonWord sourceUrl).data.take 20)
    fallbackSlug ++ "-h" ++ jsIntToString level ++ "-" ++ env.ts36 ++ "-" ++ env.rand4

/-- Parameters of the `createHeadingSection` factory. -/
structure CreateHSParams where
  level : Int
  tagName : String
  titleText : String
  contentHtml : String
  sourceUrl : String
  sectionId : Option String := none

/-- `createHeadingSection`: validates level, tag-name consistency and required
fields, then builds the immutable entity, generating a unique section id when
none (or a blank one) is supplied. -/
def createHeadingSection (env : JsEnv) (p : CreateHSParams) :
    Except DomainErr HeadingSection :=
  match validateHeadingLevelE p.level with
  | .error e => .error e
  | .ok _ =>
    match validateTagNameE p.tagName p.level with
    | .error e => .error e
    | .ok _ =>
      match validateRequiredFieldsE env p.titleText p.contentHtml p.sourceUrl with
      | .error e => .error e
      | .ok _ =>
        let gen := generateUniqueSectionId env p.sourceUrl p.level (jsTrim p.titleText)
        let sid := match p.sectionId with
          | some s => if jsTrim s ≠ "" then jsTrim s else gen
          | none => gen
        .ok { level := p.level, tagName := jsToUpper p.tagName,
              titleText := jsTrim p.titleText, contentHtml := p.contentHtml,
              sourceUrl := p.sourceUrl, addedAt := env.now, sectionId := sid }

/-! ## DOM model and heading-parser.ts (domain version)

A content container is modelled as the flat list of its child elements in
document order.  Each `Elem` carries its `tagName`, its `textContent` and its
serialized outer markup; `querySelectorAll` over the heading selector on such
a container returns exactly the children whose tag parses as a heading, and
the `nextElementSibling` chain of a child is the list suffix after it. -/

/-- A DOM element as seen by the parser: tag name, text content, serialized
outer markup. -/
structure Elem where
  tag : String
  text : String
  html : String
deriving DecidableEq, Repr

/-- Resolved `HeadingParserOptions` (the `contentSelector` option only affects
container discovery, which is bypassed when parsing a given container). -/
structure HeadingParserOptions where
  includeHeadingInContent : Bool
  maxContentLength : Nat
deriving DecidableEq, Repr

/-- The option resolution performed by the `HeadingParser` constructor:
`includeHeadingInContent ?? true` and `maxContentLength ?? 50000`. -/
def mkHeadingParserOptions (includeHeadingInContent : Option Bool)
    (maxContentLength : Option Nat) : HeadingParserOptions :=
  { includeHeadingInContent := includeHeadingInContent.getD true,
    maxContentLength := maxContentLength.getD 50000 }

/-- Whether an element terminates the sibling scan for a section of the given
level: it is a heading and its level is less than or equal to the level. -/
def isStopHeading (level : Int) (e : Elem) : Bool :=
  match getHeadingLevelFromTag e.tag with
  | some l => l ≤ level
  | none => false

/-- The `while (current)` sibling-collection loop of `extractSectionContent`:
collects elements until the first heading of smaller-or-equal level. -/
def collectContentSiblings (level : Int) : List Elem → List Elem
  | [] => []
  | e :: rest =>
    if isStopHeading level e then []
    else e :: collectContentSiblings level rest

/-- Serialization of a list of (cloned) elements through the temporary div:
the `innerHTML` is the concatenation of the outer markup of the elements. -/
def htmlConcat : List Elem → String
  | [] => ""
  | e :: rest => e.html ++ htmlConcat rest

/-- The content-length cap: when `maxContentLength` is truthy and the markup is
longer, keep the first `maxContentLength` characters and append an ellipsis.
Total by construction: truncation never throws. -/
def truncateContent (maxContentLength : Nat) (html : String) : String :=
  if maxContentLength ≠ 0 ∧ html.length > maxContentLength then
    String.mk (html.data.take maxContentLength) ++ "..."
  else html

/-- `HeadingParser.extractSectionContent` (domain version): optionally the
heading itself, then the sibling scan, then serialization and the length cap.
The source reads the heading level with a non-null assertion; `getD 0` models
the JS behaviour of the unreachable null case (a comparison with `undefined`
is false, so nothing would stop the scan). -/
def extractSectionContent (opts : HeadingParserOptions) (heading : Elem)
    (siblings : List Elem) : String :=
  let headingLevel := (getHeadingLevelFromTag heading.tag).getD 0
  let content := (if opts.includeHeadingInContent then [heading] else [])
    ++ collectContentSiblings headingLevel siblings
  truncateContent opts.maxContentLength (htmlConcat content)

/-- `HeadingParser.parseHeadingSection`: level from the tag, trimmed title,
section content, then the entity factory. -/
def parseHeadingSection (opts : HeadingParserOptions) (env : JsEnv) (heading : Elem)
    (siblings : List Elem) (sourceUrl : String) : Except DomainErr HeadingSection :=
  match getHeadingLevelFromTag heading.tag with
  | none => .error (.parse ("Invalid heading tag: " ++ heading.tag))
  | some level =>
    let titleText := jsTrim heading.text
    let contentHtml := extractSectionContent opts heading siblings
    createHeadingSection env
      { level := level, tagName := heading.tag, titleText := titleText,
        contentHtml := contentHtml, sourceUrl := sourceUrl }

/-- Whether an element matches the heading selector `h1,...,h6`. -/
def isHeadingElem (e : Elem) : Bool := (getHeadingLevelFromTag e.tag).isSome

/-- The per-heading loop of `parseFromContainer`: each heading is parsed inside
a try/catch; a failure is recorded as a warning (indexed by the position of the
heading in the heading list) and the loop continues. -/
def parseLoop (opts : HeadingParserOptions) (env : JsEnv) (sourceUrl : String) :
    List Elem → Nat → List HeadingSection × List String
  | [], _ => ([], [])
  | e :: rest, headingIdx =>
    if isHeadingElem e then
      match parseHeadingSection opts env e rest sourceUrl with
      | .ok s =>
        let r := parseLoop opts env sourceUrl rest (headingIdx + 1)
        (s :: r.1, r.2)
      | .error err =>
        let r := parseLoop opts env sourceUrl rest (headingIdx + 1)
        (r.1, ("Failed to parse heading " ++ natToDec (headingIdx + 1) ++ ": " ++ err.message) :: r.2)
    else parseLoop opts env sourceUrl rest headingIdx

/-- Result of a parse pass (the `contentContainer` field of the source is the
container that was passed in and is omitted here). -/
structure HeadingParseResult where
  sections : List HeadingSection
  warnings : List String
deriving DecidableEq, Repr

/-- `HeadingParser.parseFromContainer`. -/
def parseFromContainer (opts : HeadingParserOptions) (env : JsEnv)
    (children : List Elem) (sourceUrl : String) : HeadingParseResult :=
  let r := parseLoop opts env sourceUrl children 0
  { sections := r.1, warnings := r.2 }

/-- The headings of a container paired with their following-sibling chains
(specification-side view of the iteration space of `parseFromContainer`). -/
def headingTails : List Elem → List (Elem × List Elem)
  | [] => []
  | e :: rest =>
    if isHeadingElem e then (e, rest) :: headingTails rest
    else headingTails rest

/-- The section a heading (with its sibling chain) parses to, if any. -/
def sectionOf (opts : HeadingParserOptions) (env : JsEnv) (sourceUrl : String)
    (p : Elem × List Elem) : Option HeadingSection :=
  match parseHeadingSection opts env p.1 p.2 sourceUrl with
  | .ok s => some s
  | .error _ => none

/-! ## heading-extractor.service.ts : section validation and deduplication -/

/-- `DomHelpers.normalizeText`: collapse every whitespace run to a single
space, then trim.  Note: there is no case folding. -/
def normalizeText (s : String) : String :=
  jsTrim (String.mk (replaceWsRuns ' ' false s.data))

/-- Consumes the literal `lit` from the front of the input. -/
def eatLit : List Char → List Char → Option (List Char)
  | [], input => some input
  | _ :: _, [] => none
  | c :: cs, d :: ds => if c = d then eatLit cs ds else none

/-- Consumes one-or-more whitespace characters (the regex `\s+`). -/
def eatWs1 : List Char → Option (List Char)
  | [] => none
  | c :: rest =>
    if c.isWhitespace then some (rest.dropWhile Char.isWhitespace) else none

/-- The anchored pattern `table\s+of\s+contents?` on lowercased input. -/
def matchesTableOfContents (s : String) : Bool :=
  match eatLit "table".data s.data with
  | none => false
  | some r1 =>
    match eatWs1 r1 with
    | none => false
    | some r2 =>
      match eatLit "of".data r2 with
      | none => false
      | some r3 =>
        match eatWs1 r3 with
        | none => false
        | some r4 =>
          match eatLit "content".data r4 with
          | none => false
          | some r5 => r5 = [] || r5 = ['s']

/-- The anchored pattern `see\s+also` on lowercased input. -/
def matchesSeeAlso (s : String) : Bool :=
  match eatLit "see".data s.data with
  | none => false
  | some r1 =>
    match eatWs1 r1 with
    | none => false
    | some r2 =>
      match eatLit "also".data r2 with
      | none => false
      | some r3 => r3 = []

/-- The anchored pattern `\d+\.?\s*` (a bare number). -/
def matchesNumberOnly (s : String) : Bool :=
  match s.data with
  | [] => false
  | c :: rest =>
    if c.isDigit then
      let r := rest.dropWhile Char.isDigit
      let r2 := match r with
        | '.' :: t => t
        | _ => r
      r2.all Char.isWhitespace
    else false

/-- The anchored pattern `[#\-\*\+\s]+` (a symbols-only title). -/
def matchesSymbolsOnly (s : String) : Bool :=
  !s.data.isEmpty &&
  s.data.all (fun c => c = '#' || c = '-' || c = '*' || c = '+' || c.isWhitespace)

/-- `HeadingExtractorService.shouldExcludeSection`: boilerplate-title filter on
the lowercased, trimmed title. -/
def shouldExcludeSection (sec : HeadingSection) : Bool :=
  let title := jsTrim (jsToLower sec.titleText)
  matchesTableOfContents title || title = "toc" ||
  title = "content" || title = "contents" || title = "index" ||
  title = "reference" || title = "references" || title = "bibliography" ||
  title = "footnote" || title = "footnotes" || matchesSeeAlso title ||
  matchesNumberOnly title || matchesSymbolsOnly title

/-- `HeadingExtractorService.isValidSection`. -/
def isValidSection (sec : HeadingSection) : Bool :=
  sec.titleText ≠ "" && sec.sourceUrl ≠ "" &&
  (jsTrim sec.titleText).length ≥ 2 &&
  (1 ≤ sec.level && sec.level ≤ 6) &&
  !shouldExcludeSection sec

/-- The loop of `validateAndFilterSections`: keep valid sections whose
normalized title was not seen earlier in the same pass. -/
def validateAndFilterGo : List HeadingSection → List String → List HeadingSection
  | [], _ => []
  | s :: rest, seenTitles =>
    if !isValidSection s then validateAndFilterGo rest seenTitles
    else
      let normalizedTitle := normalizeText s.titleText
      if normalizedTitle ∈ seenTitles then validateAndFilterGo rest seenTitles
      else s :: validateAndFilterGo rest (normalizedTitle :: seenTitles)

/-- `HeadingExtractorService.validateAndFilterSections`. -/
def validateAndFilterSections (sections : List HeadingSection) : List HeadingSection :=
  validateAndFilterGo sections []

/-! ## button-manager.service.ts : the control overlay manager

`ButtonManagerService` receives its heading finder and button factory by
constructor injection; the finder and the success of the DOM insertion
cascade are therefore parameters of the model (`find`, `insertOk`), with
page headings identified by natural numbers.  The state tracks the
`buttons` map (its keys, in insertion order), the control elements present
in the DOM carrying the marker class (tracked ones and strays), and the
headings carrying the processed-marker attribute. -/

/-- Bookkeeping and DOM state of the button manager. -/
structure BMState where
  buttons : List String
  domButtons : List String
  processed : List Nat
deriving DecidableEq, Repr

/-- The normalized title used in button ids: whitespace runs become hyphens,
characters other than ASCII alphanumerics and hyphens are removed, and the
result is lowercased. -/
def buttonNormTitle (title : String) : String :=
  jsToLower (String.mk ((replaceWsRuns '-' false title.data).filter
    (fun c => (('a' ≤ c) && (c ≤ 'z')) || (('A' ≤ c) && (c ≤ 'Z')) ||
      (('0' ≤ c) && (c ≤ '9')) || c = '-')))

/-- `ButtonManagerService.generateButtonId`. -/
def generateButtonId (sec : HeadingSection) (index : Nat) : String :=
  "dwpp-btn-" ++ natToDec index ++ "-" ++ buttonNormTitle sec.titleText

/-- `ButtonManagerService.removeAllButtons`: remove each tracked control from
the DOM, sweep every remaining element carrying the marker class, and clear
every processed-marker attribute. -/
def removeAllButtons (st : BMState) : BMState :=
  let domAfterTracked := st.domButtons.filter (fun b => !st.buttons.contains b)
  let domAfterSweep := domAfterTracked.filter (fun _ => false)
  { buttons := [], domButtons := domAfterSweep, processed := [] }

/-- The `sections.forEach` body of `insertButtons`: skip when the id is
already tracked, when no heading is found, or when the heading already
carries the processed marker; otherwise create the control, insert it, track
it and mark the heading. -/
def insertLoop (find : HeadingSection → Nat → Option Nat) (insertOk : Nat → Bool) :
    Nat → List HeadingSection → BMState → BMState
  | _, [], st => st
  | index, sec :: rest, st =>
    let buttonId := generateButtonId sec index
    if buttonId ∈ st.buttons then insertLoop find insertOk (index + 1) rest st
    else
      match find sec index with
      | none => insertLoop find insertOk (index + 1) rest st
      | some h =>
        if h ∈ st.processed then insertLoop find insertOk (index + 1) rest st
        else if insertOk h then
          insertLoop find insertOk (index + 1) rest
            { buttons := st.buttons ++ [buttonId],
              domButtons := st.domButtons ++ [buttonId],
              processed := st.processed ++ [h] }
        else insertLoop find insertOk (index + 1) rest st

/-- `ButtonManagerService.insertButtons`: first removes every previously
mounted control, then mounts one control per qualifying section. -/
def insertButtons (find : HeadingSection → Nat → Option Nat) (insertOk : Nat → Bool)
    (sections : List HeadingSection) (st : BMState) : BMState :=
  insertLoop find insertOk 0 sections (removeAllButtons st)

/-- `ButtonManagerService.getButtonCount`. -/
def getButtonCount (st : BMState) : Nat := st.buttons.length

/-! ## dom-gateway SPAMonitorService : navigation and element waiting -/

/-- Observable state of the navigation tracking of `SPAMonitorService`:
the last observed URL, the number of registered navigation callbacks, and
the log of callback invocations (one entry per callback call, carrying the
URL passed to it). -/
structure SpaState where
  lastUrl : String
  callbacks : Nat
  navLog : List String
deriving DecidableEq, Repr

/-- `SPAMonitorService.checkNavigationChange`, with `currentUrl` the resolved
`window.location.href`: only when it differs from the last observed URL is
`lastUrl` updated and each registered navigation callback invoked (each
invocation guarded by its own try/catch in the source). -/
def checkNavigationChange (currentUrl : String) (s : SpaState) : SpaState :=
  if currentUrl ≠ s.lastUrl then
    { lastUrl := currentUrl, callbacks := s.callbacks,
      navLog := s.navLog ++ List.replicate s.callbacks currentUrl }
  else s

/-- Outcome of a `waitForElement` run: the boolean the promise resolves to,
the time of resolution, and the times at which the temporary observer
callback ran. -/
structure WaitOutcome where
  result : Bool
  resolvedAt : Nat
  callbackTimes : List Nat
deriving DecidableEq, Repr

/-- Event-loop trace of the observer/timer race inside `waitForElement`.
The input lists the mutation batches, each with its delivery time and
whether the selector matches the container at that point.  A batch delivered
before the timeout runs the observer callback; a matching one clears the
timer, disconnects the observer and resolves true at that time.  The first
batch at or after the timeout finds that the timer already fired,
disconnected the observer and resolved false at `timeout`, so no further
callback runs. -/
def waitLoop (timeout : Nat) : List (Nat × Bool) → WaitOutcome
  | [] => { result := false, resolvedAt := timeout, callbackTimes := [] }
  | (t, m) :: rest =>
    if t < timeout then
      if m then { result := true, resolvedAt := t, callbackTimes := [t] }
      else
        let o := waitLoop timeout rest
        { result := o.result, resolvedAt := o.resolvedAt,
          callbackTimes := t :: o.callbackTimes }
    else { result := false, resolvedAt := timeout, callbackTimes := [] }

/-- `SPAMonitorService.waitForElement`: resolves true immediately (installing
no observer) when the selector already matches inside the container,
otherwise runs the observer/timer race. -/
def waitForElement (matchesNow : Bool) (timeout : Nat) (muts : List (Nat × Bool)) :
    WaitOutcome :=
  if matchesNow then { result := true, resolvedAt := 0, callbackTimes := [] }
  else waitLoop timeout muts

/-- The default `timeout` argument of `waitForElement`. -/
def WAIT_FOR_ELEMENT_DEFAULT_TIMEOUT : Nat := 10000

/-! ## Content-script orchestration (the `initialize` entry point) -/

/-- One stage of the initialization pass, as recorded in the action trace. -/
inductive InitAction where
  | findContainer
  | waitHeadings
  | stabilize
  | extract
  | removeButtons
  | insertButtons
deriving DecidableEq, Repr

/-- Environment of one initialization pass: whether the page is relevant,
whether each stage succeeds, and whether a stage throws (the body runs
inside try/catch, so a throw only cuts the pass short). -/
structure InitEnv where
  relevantPage : Bool
  containerFound : Bool
  headingsFound : Bool
  stabilizationThrows : Bool
  extractionThrows : Bool
deriving DecidableEq, Repr

/-- The try-block of `initialize`, as the trace of DOM stages it performs:
relevance check, container lookup, bounded wait for headings, stabilization
wait, extraction, then remove-old-buttons and insert-new-buttons. -/
def initializeBody (env : InitEnv) : List InitAction :=
  if !env.relevantPage then []
  else
    [.findContainer] ++
    (if !env.containerFound then []
     else [.waitHeadings] ++
       (if !env.headingsFound then []
        else [.stabilize] ++
          (if env.stabilizationThrows then []
           else [.extract] ++
             (if env.extractionThrows then []
              else [.removeButtons, .insertButtons]))))

/-- `initialize` with its re-entrancy guard: invoked while `isInitializing`
is set it returns immediately, performing no stage, and leaves the flag to
the running pass; otherwise it sets the flag, runs the guarded body (all
exceptions caught and logged) and clears the flag in the `finally` block.
Returns the action trace and the flag value after the call returns. -/
def initializePass (env : InitEnv) (isInitializing : Bool) : List InitAction × Bool :=
  if isInitializing then ([], isInitializing)
  else (initializeBody env, false)

/-! ## add-heading-section.ts : the AddHeadingSection use case -/

/-- The machine-readable error codes of `AddHeadingSectionError` (failures
carry exactly one of these four codes, by construction of the type). -/
inductive ErrorCode where
  | INVALID_INPUT
  | STORAGE_QUOTA_EXCEEDED
  | REPOSITORY_ERROR
  | UNKNOWN_ERROR
deriving DecidableEq, Repr

/-- Structured error result (`AddHeadingSectionError`; the optional `details`
payload is omitted). -/
structure AddError where
  errorCode : ErrorCode
  message : String
deriving DecidableEq, Repr

/-- `AddHeadingSectionResult`. -/
inductive AddResult where
  | ok (sectionId : String)
  | err (e : AddError)
deriving DecidableEq, Repr

/-- The exception kinds that can reach `execute`'s catch block.  In the
source `StorageQuotaExceededError` is a subclass of `RepositoryError`; it is
a separate constructor here, matching the fact that `handleError` tests it
first. -/
inductive Thrown where
  | inputValidation (message field : String)
  | validation (message : String)
  | invalidSection (message : String)
  | storageQuota (message : String)
  | repositoryErr (message : String)
  | other (message : String)
deriving DecidableEq, Repr

/-- `AddHeadingSectionUseCase.handleError`: the instanceof cascade mapping
every thrown error to a structured error with one of the four codes. -/
def handleError : Thrown → AddError
  | .inputValidation m _ => { errorCode := .INVALID_INPUT, message := m }
  | .storageQuota _ =>
    { errorCode := .STORAGE_QUOTA_EXCEEDED,
      message := "Storage quota exceeded. Please remove some sections and try again." }
  | .invalidSection m => { errorCode := .INVALID_INPUT, message := m }
  | .repositoryErr _ =>
    { errorCode := .REPOSITORY_ERROR, message := "Failed to save section to storage" }
  | .validation _ =>
    { errorCode := .UNKNOWN_ERROR,
      message := "An unexpected error occurred while adding the section" }
  | .other _ =>
    { errorCode := .UNKNOWN_ERROR,
      message := "An unexpected error occurred while adding the section" }

/-- `AddHeadingSectionInput`. -/
structure AddInput where
  level : Int
  title : String
  content : Option String
  sourceUrl : String
  id : Option String
deriving DecidableEq, Repr

/-- `AddHeadingSectionUseCase.validateInput` (the level is an `Int` in the
model, so the `Number.isInteger` conjunct of the source always holds). -/
def validateInput (env : JsEnv) (input : AddInput) : Except Thrown Unit :=
  if input.level < 1 ∨ 6 < input.level then
    .error (.inputValidation "Heading level must be an integer between 1 and 6" "level")
  else if jsTrim input.title = "" then
    .error (.inputValidation "Title must be a non-empty string" "title")
  else if input.sourceUrl = "" then
    .error (.inputValidation "Source URL must be a non-empty string" "sourceUrl")
  else
    match env.parseUrlHost input.sourceUrl with
    | none => .error (.inputValidation "Source URL must be a valid URL" "sourceUrl")
    | some _ =>
      match input.id with
      | some i =>
        if jsTrim i = "" then
          .error (.inputValidation "Custom ID must be a non-empty string if provided" "id")
        else .ok ()
      | none => .ok ()

/-- The `isHeadingSection` type guard on the model (the typeof conjuncts of
the source hold by typing; the level range is the residual runtime check). -/
def isHeadingSectionB (s : HeadingSection) : Bool := 1 ≤ s.level && s.level ≤ 6

/-- The content fallback markup `<h{level}>{title}</h{level}>`. -/
def contentFallback (level : Int) (titleTrimmed : String) : String :=
  "<h" ++ jsIntToString level ++ ">" ++ titleTrimmed ++ "</h" ++ jsIntToString level ++ ">"

/-- `AddHeadingSectionUseCase.createHeadingSection`: assembles the factory
parameters from the validated input (tag derived as `H` + level, trimmed
title, trimmed content or the heading-markup fallback, the custom id only
when a non-empty one is supplied) and applies the entity factory and the
type guard. -/
def createSectionFromInput (env : JsEnv) (input : AddInput) : Except Thrown HeadingSection :=
  let sectionData : CreateHSParams :=
    { level := input.level,
      tagName := "H" ++ jsIntToString input.level,
      titleText := jsTrim input.title,
      contentHtml :=
        (match input.content with
         | some c =>
           if jsTrim c ≠ "" then jsTrim c
           else contentFallback input.level (jsTrim input.title)
         | none => contentFallback input.level (jsTrim input.title)),
      sourceUrl := input.sourceUrl,
      sectionId :=
        (match input.id with
         | some i => if i ≠ "" then some (jsTrim i) else none
         | none => none) }
  match createHeadingSection env sectionData with
  | .error (.validation m) => .error (.validation m)
  | .error (.parse m) => .error (.other m)
  | .ok s =>
    if !isHeadingSectionB s then .error (.other "Failed to create valid HeadingSection entity")
    else .ok s

/-- Abstract state of the persistence collaborator, consumed through the
`IHeadingSectionRepository` contract: the stored sections. -/
structure RepoState where
  stored : List HeadingSection
deriving DecidableEq, Repr

/-- `sectionExists` of the repository contract: a purely id-based lookup. -/
def sectionExists (repo : RepoState) (sectionId : String) : Bool :=
  repo.stored.any (fun t => t.sectionId = sectionId)

/-- The structured duplicate-id rejection returned by `execute`. -/
def duplicateIdError : AddError :=
  { errorCode := .INVALID_INPUT, message := "A section with this ID already exists" }

/-- Observable outcome of one `execute` run: the structured result, whether
`addSection` was invoked, and the repository contents afterwards. -/
structure ExecOut where
  result : AddResult
  addCalled : Bool
  stored : List HeadingSection
deriving DecidableEq, Repr

/-- `AddHeadingSectionUseCase.execute`: validate the input, build the entity,
reject when a section with the same id already exists, then persist.
`addOutcome` models the behaviour of the injected repository `addSection`
(`none` = success, `some e` = it throws `e`).  Every thrown error is caught
and mapped by `handleError`, so the function is total and every failure
carries exactly one of the four codes. -/
def executeAdd (env : JsEnv) (repo : RepoState) (addOutcome : Option Thrown)
    (input : AddInput) : ExecOut :=
  match validateInput env input with
  | .error e => { result := .err (handleError e), addCalled := false, stored := repo.stored }
  | .ok _ =>
    match createSectionFromInput env input with
    | .error e => { result := .err (handleError e), addCalled := false, stored := repo.stored }
    | .ok s =>
      if sectionExists repo s.sectionId then
        { result := .err duplicateIdError, addCalled := false, stored := repo.stored }
      else
        match addOutcome with
        | some e => { result := .err (handleError e), addCalled := true, stored := repo.stored }
        | none => { result := .ok s.sectionId, addCalled := true, stored := repo.stored ++ [s] }

/-! ### Concrete inputs used by witnesses -/

def defaultOpts : HeadingParserOptions := mkHeadingParserOptions none none

def url0 : String := "https://example.com/repo"

def elemH2A : Elem := { tag := "H2", text := "A", html := "<h2>A</h2>" }

def elemH3B : Elem := { tag := "H3", text := "B", html := "<h3>B</h3>" }

def elemH2C : Elem := { tag := "H2", text := "C", html := "<h2>C</h2>" }

/-- The container of the section-boundary scenario: `H2(A), H3(B), H2(C)`. -/
def containerABC : List Elem := [elemH2A, elemH3B, elemH2C]

/-- A heading whose text trims to empty (fails entity validation). -/
def elemEmptyTitle : Elem := { tag := "H2", text := "   ", html := "<h2> </h2>" }

/-- A container with a bad heading between two good ones. -/
def containerWithBad : List Elem := [elemH2A, elemEmptyTitle, elemH2C]

def secIntro : HeadingSection :=
  { level := 2, tagName := "H2", titleText := "Intro",
    contentHtml := "<h2>Intro</h2><p>x</p>", sourceUrl := "https://example.com/repo",
    addedAt := 0, sectionId := "id-intro-1" }

/-- A case variant of `secIntro` with extra whitespace: the pair used by the
deduplication claim. -/
def secIntroLowerWs : HeadingSection :=
  { level := 2, tagName := "H2", titleText := "  intro  ",
    contentHtml := "<h2>intro</h2><p>y</p>", sourceUrl := "https://example.com/repo",
    addedAt := 0, sectionId := "id-intro-2" }

/-- A pure whitespace variant of `secIntro` (same letter case). -/
def secIntroWs : HeadingSection :=
  { level := 2, tagName := "H2", titleText := "  Intro  ",
    contentHtml := "<h2>Intro</h2><p>z</p>", sourceUrl := "https://example.com/repo",
    addedAt := 0, sectionId := "id-intro-3" }

/-- An already stored section. -/
def secStoredOld : HeadingSection :=
  { level := 2, tagName := "H2", titleText := "Overview",
    contentHtml := "<h2>Overview</h2>", sourceUrl := "https://example.com/repo",
    addedAt := 0, sectionId := "old-id-1" }

def repoW : RepoState := { stored := [secStoredOld] }

/-- An input whose custom id collides with the stored section. -/
def inputDup : AddInput :=
  { level := 2, title := "Overview", content := some "<h2>Overview</h2><p>t</p>",
    sourceUrl := "https://example.com/repo", id := some "old-id-1" }

/-- The section `inputDup` builds. -/
def sDup : HeadingSection :=
  { level := 2, tagName := "H2", titleText := "Overview",
    contentHtml := "<h2>Overview</h2><p>t</p>", sourceUrl := "https://example.com/repo",
    addedAt := 0, sectionId := "old-id-1" }

/-- An input with the same source URL, level and title as the stored section
but a fresh id. -/
def inputFresh : AddInput :=
  { level := 2, title := "Overview", content := some "<h2>Overview</h2><p>t</p>",
    sourceUrl := "https://example.com/repo", id := some "fresh-id-2" }

/-- The section `inputFresh` builds. -/
def sFresh : HeadingSection :=
  { level := 2, tagName := "H2", titleText := "Overview",
    contentHtml := "<h2>Overview</h2><p>t</p>", sourceUrl := "https://example.com/repo",
    addedAt := 0, sectionId := "fresh-id-2" }

/-- A platform environment accepting one concrete URL. -/
def env0 : JsEnv :=
  { parseUrlHost := fun s => if s = "https://example.com/repo" then some "example.com" else none,
    now := 0, ts36 := "ts0", rand4 := "r4nd" }

def pGood : CreateHSParams :=
  { level := 2, tagName := "h2", titleText := "Overview",
    contentHtml := "<h2>Overview</h2>", sourceUrl := "https://example.com/repo",
    sectionId := some "sec-1" }

def sGood : HeadingSection :=
  { level := 2, tagName := "H2", titleText := "Overview",
    contentHtml := "<h2>Overview</h2>", sourceUrl := "https://example.com/repo",
    addedAt := 0, sectionId := "sec-1" }

def pMismatch : CreateHSParams :=
  { level := 2, tagName := "h3", titleText := "Overview",
    contentHtml := "<h2>Overview</h2>", sourceUrl := "https://example.com/repo" }

def pBadLevel : CreateHSParams :=
  { level := 7, tagName := "H7", titleText := "Overview",
    contentHtml := "<h2>Overview</h2>", sourceUrl := "https://example.com/repo" }

/-! ## Theorems -/

/-- C3: every `HeadingSection` returned by `createHeadingSection` satisfies
`1 ≤ level ≤ 6` and `tagName = "H" + level`; and calling it with a tag name
whose uppercase form differs from `"H" + level`, or with a level outside
`1..6`, yields a `ValidationError` instead of a section. -/
theorem createHeadingSection_level_tag_invariant :
    (∀ (env : JsEnv) (p : CreateHSParams) (s : HeadingSection),
      createHeadingSection env p = .ok s →
      1 ≤ s.level ∧ s.level ≤ 6 ∧ s.tagName = "H" ++ jsIntToString s.level) ∧
    (∀ (env : JsEnv) (p : CreateHSParams),
      jsToUpper p.tagName ≠ "H" ++ jsIntToString p.level →
      ∃ msg, createHeadingSection env p = .error (.validation msg)) ∧
    (∀ (env : JsEnv) (p : CreateHSParams),
      (p.level < 1 ∨ 6 < p.level) →
      ∃ msg, createHeadingSection env p = .error (.validation msg)) := by
  refine ⟨?_, ?_, ?_⟩
  · intro env p s h
    unfold createHeadingSection validateHeadingLevelE validateTagNameE at h
    by_cases hlv : isValidHeadingLevel p.level
    · simp only [hlv, if_true] at h
      by_cases htag : jsToUpper p.tagName = "H" ++ jsIntToString p.level
      · simp only [htag, if_true] at h
        cases hrf : validateRequiredFieldsE env p.titleText p.contentHtml p.sourceUrl with
        | error e => rw [hrf] at h; exact absurd h (by simp)
        | ok u =>
          rw [hrf] at h
          simp only [Except.ok.injEq] at h
          have hb : (1 : Int) ≤ p.level ∧ p.level ≤ 6 := by
            have h2 := hlv
            unfold isValidHeadingLevel MIN_HEADING_LEVEL MAX_HEADING_LEVEL at h2
            simpa using h2
          subst h
          exact ⟨hb.1, hb.2, rfl⟩
      · simp only [htag, if_false] at h
        exact absurd h (by simp)
    · simp only [hlv, if_false] at h
      exact absurd h (by simp)
  · intro env p htag
    unfold createHeadingSection validateHeadingLevelE validateTagNameE
    by_cases hlv : isValidHeadingLevel p.level
    · simp only [hlv, if_true, htag, if_false]
      exact ⟨_, rfl⟩
    · simp only [hlv, if_false]
      exact ⟨_, rfl⟩
  · intro env p hlev
    unfold createHeadingSection validateHeadingLevelE
    cases hb : isValidHeadingLevel p.level with
    | true =>
      exfalso
      unfold isValidHeadingLevel MIN_HEADING_LEVEL MAX_HEADING_LEVEL at hb
      simp only [Bool.and_eq_true, decide_eq_true_eq] at hb
      omega
    | false =>
      simp only [if_false]
      exact ⟨_, rfl⟩

/-- C3 witness: the invariant and both failure modes at concrete inputs. -/
theorem createHeadingSection_level_tag_invariant_witness :
    (1 ≤ sGood.level ∧ sGood.level ≤ 6 ∧ sGood.tagName = "H" ++ jsIntToString sGood.level) ∧
    (∃ msg, createHeadingSection env0 pMismatch = .error (.validation msg)) ∧
    (∃ msg, createHeadingSection env0 pBadLevel = .error (.validation msg)) :=
  ⟨createHeadingSection_level_tag_invariant.1 env0 pGood sGood (by rfl),
   createHeadingSection_level_tag_invariant.2.1 env0 pMismatch (by decide),
   createHeadingSection_level_tag_invariant.2.2 env0 pBadLevel (by decide)⟩

/-- The sibling-collection loop collects exactly the longest prefix of the
sibling chain free of headings of smaller-or-equal level. -/
theorem collectContentSiblings_eq_takeWhile (level : Int) (l : List Elem) :
    collectContentSiblings level l = l.takeWhile (fun e => !isStopHeading level e) := by
  induction l with
  | nil => rfl
  | cons e rest ih =>
    unfold collectContentSiblings
    rw [List.takeWhile_cons]
    by_cases h : isStopHeading level e
    · simp [h]
    · simp [h, ih]

/-- C1: with `includeHeadingInContent` enabled, the extracted content is the
heading markup followed by the markup of each following sibling in order,
stopping before the first heading of level `≤ L` (then capped); and on the
container `H2(A), H3(B), H2(C)` exactly two level-2 sections are produced,
the section for `A` includes `B` and stops before `C`, and `C` is a fresh
section with empty trailing content. -/
theorem extractSectionContent_boundaries :
    (∀ (opts : HeadingParserOptions) (heading : Elem) (siblings : List Elem) (L : Int),
      getHeadingLevelFromTag heading.tag = some L →
      opts.includeHeadingInContent = true →
      extractSectionContent opts heading siblings =
        truncateContent opts.maxContentLength
          (heading.html ++ htmlConcat (siblings.takeWhile (fun e => !isStopHeading L e)))) ∧
    ((parseFromContainer defaultOpts env0 containerABC url0).sections.map
        (fun s => (s.level, s.titleText, s.contentHtml)) =
      [(2, "A", "<h2>A</h2><h3>B</h3>"), (3, "B", "<h3>B</h3>"), (2, "C", "<h2>C</h2>")]) ∧
    (((parseFromContainer defaultOpts env0 containerABC url0).sections.filter
        (fun s => s.level == 2)).length = 2) := by
  refine ⟨?_, by decide, by decide⟩
  intro opts heading siblings L hL hInc
  unfold extractSectionContent
  rw [hL, hInc]
  simp only [Option.getD_some, if_true, List.singleton_append,
    collectContentSiblings_eq_takeWhile]
  rfl

/-- C1 witness: the boundary characterization evaluated on the heading `A`
with siblings `B`, `C`. -/
theorem extractSectionContent_boundaries_witness :
    extractSectionContent defaultOpts elemH2A [elemH3B, elemH2C] =
      truncateContent defaultOpts.maxContentLength
        (elemH2A.html ++ htmlConcat ([elemH3B, elemH2C].takeWhile
          (fun e => !isStopHeading 2 e))) :=
  extractSectionContent_boundaries.1 defaultOpts elemH2A [elemH3B, elemH2C] 2
    (by decide) (by decide)

/-- The parse loop keeps exactly the successfully parsed headings (in order)
and records one warning per failing heading. -/
theorem parseLoop_spec (opts : HeadingParserOptions) (env : JsEnv) (sourceUrl : String)
    (children : List Elem) : ∀ headingIdx : Nat,
    (parseLoop opts env sourceUrl children headingIdx).1 =
      (headingTails children).filterMap (sectionOf opts env sourceUrl) ∧
    (parseLoop opts env sourceUrl children headingIdx).1.length +
      (parseLoop opts env sourceUrl children headingIdx).2.length =
      (headingTails children).length := by
  induction children with
  | nil => intro idx; exact ⟨rfl, rfl⟩
  | cons e rest ih =>
    intro idx
    unfold parseLoop headingTails
    by_cases he : isHeadingElem e = true
    · rw [if_pos he, if_pos he]
      have h1 := (ih (idx + 1)).1
      have h2 := (ih (idx + 1)).2
      cases hp : parseHeadingSection opts env e rest sourceUrl with
      | ok s =>
        dsimp only
        constructor
        · rw [List.filterMap_cons]
          simp only [sectionOf, hp]
          rw [h1]
        · simp only [List.length_cons]
          omega
      | error err =>
        dsimp only
        constructor
        · rw [List.filterMap_cons]
          simp only [sectionOf, hp]
          exact h1
        · simp only [List.length_cons]
          omega
    · rw [if_neg he, if_neg he]
      exact ih idx

/-- C5: per-heading failure isolation in `parseFromContainer`: the output
sections are exactly the headings whose section construction succeeds (in
document order), each failing heading contributes exactly one warning instead
of aborting the pass, and the parse of the whole container is a total
function (it never throws).  Concretely, a container with a bad heading
(empty title) between two good ones yields both good sections and one
warning. -/
theorem parseFromContainer_isolation :
    (∀ (opts : HeadingParserOptions) (env : JsEnv) (children : List Elem)
        (sourceUrl : String),
      (parseFromContainer opts env children sourceUrl).sections =
        (headingTails children).filterMap (sectionOf opts env sourceUrl) ∧
      (parseFromContainer opts env children sourceUrl).sections.length +
        (parseFromContainer opts env children sourceUrl).warnings.length =
        (headingTails children).length) ∧
    ((parseFromContainer defaultOpts env0 containerWithBad url0).sections.map
        (fun s => s.titleText) = ["A", "C"]) ∧
    ((parseFromContainer defaultOpts env0 containerWithBad url0).warnings.length = 1) := by
  refine ⟨?_, by decide, by decide⟩
  intro opts env children sourceUrl
  exact parseLoop_spec opts env sourceUrl children 0

/-- C9: the content-length cap.  When the serialized markup exceeds the
configured maximum (and the maximum is truthy), the produced content is the
first `maxContentLength` characters followed by the ellipsis marker; markup
at or below the maximum is left unchanged; the default maximum resolved by
the constructor is 50000.  Truncation is a total function (never throws). -/
theorem contentLength_cap :
    (∀ (maxContentLength : Nat) (html : String),
      (maxContentLength ≠ 0 → html.length > maxContentLength →
        truncateContent maxContentLength html =
          String.mk (html.data.take maxContentLength) ++ "...") ∧
      (html.length ≤ maxContentLength →
        truncateContent maxContentLength html = html)) ∧
    (∀ (opts : HeadingParserOptions) (heading : Elem) (siblings : List Elem),
      extractSectionContent opts heading siblings =
        truncateContent opts.maxContentLength
          (htmlConcat ((if opts.includeHeadingInContent then [heading] else []) ++
            collectContentSiblings ((getHeadingLevelFromTag heading.tag).getD 0) siblings))) ∧
    ((mkHeadingParserOptions none none).maxContentLength = 50000) := by
  refine ⟨?_, ?_, rfl⟩
  · intro maxContentLength html
    constructor
    · intro hnz hgt
      unfold truncateContent
      rw [if_pos ⟨hnz, hgt⟩]
    · intro hle
      unfold truncateContent
      rw [if_neg]
      intro hcon
      omega
  · intro opts heading siblings
    rfl

/-- C9 witness: a markup of length 10 capped at 5 becomes its first 5
characters plus the ellipsis, and markup within the default cap is unchanged. -/
theorem contentLength_cap_witness :
    truncateContent 5 "<h2>A</h2>" = "<h2>A" ++ "..." ∧
    truncateContent 50000 "<h2>A</h2>" = "<h2>A</h2>" :=
  ⟨(contentLength_cap.1 5 "<h2>A</h2>").1 (by decide) (by decide),
   (contentLength_cap.1 50000 "<h2>A</h2>").2 (by decide)⟩

/-- Invariant of the deduplication loop: no kept section has a normalized
title in the seen set, kept normalized titles are pairwise distinct, and the
kept sections form an order-preserving subsequence of the input. -/
theorem validateAndFilterGo_spec (ss : List HeadingSection) : ∀ seenTitles : List String,
    (∀ s ∈ validateAndFilterGo ss seenTitles, normalizeText s.titleText ∉ seenTitles) ∧
    ((validateAndFilterGo ss seenTitles).map (fun s => normalizeText s.titleText)).Nodup ∧
    (validateAndFilterGo ss seenTitles).Sublist ss := by
  induction ss with
  | nil =>
    intro seen
    refine ⟨?_, List.nodup_nil, List.Sublist.refl []⟩
    intro s h
    cases h
  | cons s rest ih =>
    intro seen
    unfold validateAndFilterGo
    by_cases hv : isValidSection s
    · simp only [hv, Bool.not_true, Bool.false_eq_true, if_false]
      by_cases hm : normalizeText s.titleText ∈ seen
      · rw [if_pos hm]
        have h := ih seen
        exact ⟨h.1, h.2.1, h.2.2.cons s⟩
      · rw [if_neg hm]
        have h := ih (normalizeText s.titleText :: seen)
        refine ⟨?_, ?_, h.2.2.cons₂ s⟩
        · intro t ht
          cases ht with
          | head => exact hm
          | tail _ ht =>
            have := h.1 t ht
            intro hmem
            exact this (List.mem_cons_of_mem _ hmem)
        · rw [List.map_cons]
          refine List.nodup_cons.mpr ⟨?_, h.2.1⟩
          intro hmem
          rw [List.mem_map] at hmem
          obtain ⟨t, ht, hteq⟩ := hmem
          exact h.1 t ht (hteq ▸ List.mem_cons_self _ _)
    · simp only [hv, Bool.not_false, if_true]
      have h := ih seen
      exact ⟨h.1, h.2.1, h.2.2.cons s⟩

/-- C4 counterexample: with the titles `"Intro"` and `"  intro  "` (a case
variant), the validator keeps BOTH sections in one pass, because
`DomHelpers.normalizeText` collapses whitespace but does not fold case, so
the two normalized titles differ. -/
theorem validateAndFilter_case_variant_kept :
    (validateAndFilterSections [secIntro, secIntroLowerWs]).length = 2 ∧
    normalizeText secIntro.titleText ≠ normalizeText secIntroLowerWs.titleText := by
  constructor <;> decide

/-- C4 (amended): within a single pass the validator deduplicates by
whitespace-normalized (collapsed and trimmed, case-sensitive) title, keeping
the first occurrence: kept normalized titles are pairwise distinct and the
output is an order-preserving subsequence of the input; two titles that are
pure whitespace variants of each other (`"Intro"` and `"  Intro  "`) keep
exactly one (the first), while case variants are not merged. -/
theorem validateAndFilter_dedup_normalized :
    (∀ sections : List HeadingSection,
      ((validateAndFilterSections sections).map
        (fun s => normalizeText s.titleText)).Nodup ∧
      (validateAndFilterSections sections).Sublist sections) ∧
    (validateAndFilterSections [secIntro, secIntroWs] = [secIntro]) := by
  refine ⟨?_, by decide⟩
  intro sections
  have h := validateAndFilterGo_spec sections []
  exact ⟨h.2.1, h.2.2⟩

/-- Digit characters are never hyphens. -/
theorem digitChar_ne_hyphen (n : Nat) : digitChar n ≠ '-' := by
  unfold digitChar
  split_ifs <;> decide

/-- `digitVal` inverts `digitChar` on digits. -/
theorem digitVal_digitChar (n : Nat) (h : n < 10) : digitVal (digitChar n) = n := by
  interval_cases n <;> decide

/-- Decimal renderings contain no hyphen. -/
theorem hyphen_not_mem_natToDecAux (fuel : Nat) : ∀ n : Nat, '-' ∉ natToDecAux fuel n := by
  induction fuel with
  | zero => intro n; simp [natToDecAux]
  | succ fuel ih =>
    intro n
    unfold natToDecAux
    by_cases h : n < 10
    · rw [if_pos h]
      intro hmem
      rw [List.mem_singleton] at hmem
      exact digitChar_ne_hyphen n hmem.symm
    · rw [if_neg h]
      intro hmem
      rw [List.mem_append] at hmem
      cases hmem with
      | inl hm => exact ih _ hm
      | inr hm =>
        rw [List.mem_singleton] at hm
        exact digitChar_ne_hyphen _ hm.symm

/-- Appending a digit multiplies the value by ten and adds the digit. -/
theorem decVal_append (l : List Char) (c : Char) :
    decVal (l ++ [c]) = 10 * decVal l + digitVal c := by
  unfold decVal
  rw [List.foldl_append]
  simp only [List.foldl]
  omega

/-- `decVal` inverts the fuelled decimal rendering. -/
theorem decVal_natToDecAux (fuel : Nat) : ∀ n : Nat, n < fuel →
    decVal (natToDecAux fuel n) = n := by
  induction fuel with
  | zero => intro n h; omega
  | succ fuel ih =>
    intro n h
    unfold natToDecAux
    by_cases h10 : n < 10
    · rw [if_pos h10]
      unfold decVal
      simp only [List.foldl]
      rw [digitVal_digitChar n h10]
      omega
    · rw [if_neg h10]
      rw [decVal_append]
      have hdiv : n / 10 < fuel := by
        have := Nat.div_lt_self (by omega : 0 < n) (by omega : 1 < 10)
        omega
      rw [ih (n / 10) hdiv, digitVal_digitChar (n % 10) (Nat.mod_lt n (by omega))]
      omega

/-- Decimal rendering is injective. -/
theorem natToDecL_inj {m n : Nat} (h : natToDecL m = natToDecL n) : m = n := by
  have h1 : decVal (natToDecL m) = m := decVal_natToDecAux (m + 1) m (Nat.lt_succ_self m)
  have h2 : decVal (natToDecL n) = n := decVal_natToDecAux (n + 1) n (Nat.lt_succ_self n)
  rw [h, h2] at h1
  exact h1.symm

/-- Splitting at the first hyphen: two hyphen-free lists followed by a hyphen
and arbitrary tails are equal segment-wise. -/
theorem append_hyphen_inj : ∀ (a b x y : List Char), '-' ∉ a → '-' ∉ b →
    a ++ '-' :: x = b ++ '-' :: y → a = b ∧ x = y := by
  intro a
  induction a with
  | nil =>
    intro b x y _ hb h
    cases b with
    | nil =>
      simp only [List.nil_append] at h
      exact ⟨rfl, (List.cons.injEq _ _ _ _ ▸ h).2⟩
    | cons d ds =>
      simp only [List.nil_append, List.cons_append, List.cons.injEq] at h
      exact absurd (h.1 ▸ List.mem_cons_self d ds) hb
  | cons c cs ih =>
    intro b x y ha hb h
    cases b with
    | nil =>
      simp only [List.cons_append, List.nil_append, List.cons.injEq] at h
      exact absurd (h.1.symm ▸ List.mem_cons_self c cs) ha
    | cons d ds =>
      simp only [List.cons_append, List.cons.injEq] at h
      obtain ⟨hcd, hrest⟩ := h
      have ha2 : '-' ∉ cs := fun hm => ha (List.mem_cons_of_mem _ hm)
      have hb2 : '-' ∉ ds := fun hm => hb (List.mem_cons_of_mem _ hm)
      obtain ⟨heq, htails⟩ := ih ds x y ha2 hb2 hrest
      exact ⟨by rw [hcd, heq], htails⟩

/-- The character data of an appended string. -/
theorem stringDataAppend (a b : String) : (a ++ b).data = a.data ++ b.data := rfl

/-- Button ids embed the section index injectively: ids generated at
different indices differ, whatever the titles. -/
theorem generateButtonId_index_inj (s t : HeadingSection) (i j : Nat)
    (h : generateButtonId s i = generateButtonId t j) : i = j := by
  unfold generateButtonId at h
  have hd : ("dwpp-btn-".data ++ (natToDecL i ++ '-' :: (buttonNormTitle s.titleText).data)) =
      ("dwpp-btn-".data ++ (natToDecL j ++ '-' :: (buttonNormTitle t.titleText).data)) := by
    have hdata := congrArg String.data h
    simp only [stringDataAppend, List.append_assoc] at hdata
    simpa [natToDec, natToDecL] using hdata
  have hmid := List.append_cancel_left hd
  have hsplit := append_hyphen_inj _ _ _ _
    (hyphen_not_mem_natToDecAux (i + 1) i) (hyphen_not_mem_natToDecAux (j + 1) j) hmid
  exact natToDecL_inj hsplit.1

/-- The tear-down at the start of every pass resets the full state: tracked
map emptied, every marker-class element (tracked or stray) swept from the
DOM, every processed-marker attribute cleared. -/
theorem removeAllButtons_eq (st : BMState) :
    removeAllButtons st = { buttons := [], domButtons := [], processed := [] } := by
  unfold removeAllButtons
  simp

/-- Loop invariant for `insertLoop`: when every remaining section finds a
mountable heading, the found headings are pairwise distinct and not yet
processed, and the generated ids are not yet tracked, the loop mounts exactly
one control per section. -/
theorem insertLoop_count (find : HeadingSection → Nat → Option Nat) (insertOk : Nat → Bool)
    (sections : List HeadingSection) : ∀ (index : Nat) (st : BMState),
    (∀ j (hj : j < sections.length), ∃ h, find (sections.get ⟨j, hj⟩) (index + j) = some h ∧
      insertOk h = true ∧ h ∉ st.processed) →
    (∀ j k (hj : j < sections.length) (hk : k < sections.length) (h h2 : Nat), j ≠ k →
      find (sections.get ⟨j, hj⟩) (index + j) = some h →
      find (sections.get ⟨k, hk⟩) (index + k) = some h2 → h ≠ h2) →
    (∀ j (hj : j < sections.length),
      generateButtonId (sections.get ⟨j, hj⟩) (index + j) ∉ st.buttons) →
    (insertLoop find insertOk index sections st).buttons.length =
      st.buttons.length + sections.length ∧
    (insertLoop find insertOk index sections st).domButtons.length =
      st.domButtons.length + sections.length := by
  induction sections with
  | nil =>
    intro index st _ _ _
    exact ⟨by simp [insertLoop], by simp [insertLoop]⟩
  | cons sec rest ih =>
    intro index st hfind hinj hid
    have hlen0 : 0 < (sec :: rest).length := by simp
    obtain ⟨h0, hf0, hok0, hnp0⟩ := hfind 0 hlen0
    have hget0 : (sec :: rest).get ⟨0, hlen0⟩ = sec := rfl
    rw [hget0, Nat.add_zero] at hf0
    have hid0 := hid 0 hlen0
    rw [hget0, Nat.add_zero] at hid0
    unfold insertLoop
    rw [if_neg hid0, hf0]
    dsimp only
    rw [if_neg hnp0, if_pos hok0]
    set st2 : BMState :=
      { buttons := st.buttons ++ [generateButtonId sec index],
        domButtons := st.domButtons ++ [generateButtonId sec index],
        processed := st.processed ++ [h0] } with hst2
    have hrest := ih (index + 1) st2 ?_ ?_ ?_
    · rw [hrest.1, hrest.2]
      constructor
      · simp [hst2]
        omega
      · simp [hst2]
        omega
    · intro j hj
      have hj2 : j + 1 < (sec :: rest).length := by simpa using Nat.succ_lt_succ hj
      obtain ⟨h, hf, hok, hnp⟩ := hfind (j + 1) hj2
      rw [List.get_cons_succ] at hf
      refine ⟨h, by rw [show index + 1 + j = index + (j + 1) by omega]; exact hf, hok, ?_⟩
      rw [hst2]
      simp only [List.mem_append, List.mem_singleton]
      rintro (hmem | hmem)
      · exact hnp hmem
      · exact hinj (j + 1) 0 hj2 hlen0 h h0 (by omega) hf
          (by rw [hget0, Nat.add_zero]; exact hf0) hmem
    · intro j k hj hk h h2 hjk hfj hfk
      have hj2 : j + 1 < (sec :: rest).length := by simpa using Nat.succ_lt_succ hj
      have hk2 : k + 1 < (sec :: rest).length := by simpa using Nat.succ_lt_succ hk
      rw [show index + 1 + j = index + (j + 1) by omega] at hfj
      rw [show index + 1 + k = index + (k + 1) by omega] at hfk
      exact hinj (j + 1) (k + 1) hj2 hk2 h h2 (by omega)
        (by rw [List.get_cons_succ]; exact hfj)
        (by rw [List.get_cons_succ]; exact hfk)
    · intro j hj
      have hj2 : j + 1 < (sec :: rest).length := by simpa using Nat.succ_lt_succ hj
      have hidj := hid (j + 1) hj2
      rw [List.get_cons_succ] at hidj
      rw [hst2]
      simp only [List.mem_append, List.mem_singleton]
      rintro (hmem | hmem)
      · exact hidj (by rw [show index + (j + 1) = index + 1 + j by omega]; exact hmem)
      · have := generateButtonId_index_inj _ _ _ _ hmem
        omega

/-- C2: the overlay refresh is idempotent.  `insertButtons` is insensitive to
the previous state (stray controls and stale processed markers included)
because it starts with a full tear-down; calling it twice with the same list
leaves the mounted state of the first call unchanged; and when every section
finds a distinct mountable heading, exactly one control per section is
mounted and `getButtonCount` equals the number of sections. -/
theorem insertButtons_idempotent :
    (∀ (find : HeadingSection → Nat → Option Nat) (insertOk : Nat → Bool)
        (sections : List HeadingSection) (st st2 : BMState),
      insertButtons find insertOk sections st = insertButtons find insertOk sections st2) ∧
    (∀ (find : HeadingSection → Nat → Option Nat) (insertOk : Nat → Bool)
        (sections : List HeadingSection) (st : BMState),
      insertButtons find insertOk sections (insertButtons find insertOk sections st) =
        insertButtons find insertOk sections st) ∧
    (∀ (find : HeadingSection → Nat → Option Nat) (insertOk : Nat → Bool)
        (sections : List HeadingSection) (st : BMState),
      (∀ j (hj : j < sections.length), ∃ h, find (sections.get ⟨j, hj⟩) j = some h ∧
        insertOk h = true) →
      (∀ j k (hj : j < sections.length) (hk : k < sections.length) (h h2 : Nat), j ≠ k →
        find (sections.get ⟨j, hj⟩) j = some h →
        find (sections.get ⟨k, hk⟩) k = some h2 → h ≠ h2) →
      getButtonCount (insertButtons find insertOk sections st) = sections.length ∧
      (insertButtons find insertOk sections st).domButtons.length = sections.length) := by
  refine ⟨?_, ?_, ?_⟩
  · intro find insertOk sections st st2
    unfold insertButtons
    rw [removeAllButtons_eq st, removeAllButtons_eq st2]
  · intro find insertOk sections st
    unfold insertButtons
    rw [removeAllButtons_eq, removeAllButtons_eq]
  · intro find insertOk sections st hfind hinj
    unfold insertButtons getButtonCount
    rw [removeAllButtons_eq]
    have h := insertLoop_count find insertOk sections 0
      { buttons := [], domButtons := [], processed := [] }
      (fun j hj => by
        obtain ⟨h, hf, hok⟩ := hfind j hj
        exact ⟨h, by rw [Nat.zero_add]; exact hf, hok, by simp⟩)
      (fun j k hj hk h h2 hjk hfj hfk => by
        rw [Nat.zero_add] at hfj
        rw [Nat.zero_add] at hfk
        exact hinj j k hj hk h h2 hjk hfj hfk)
      (fun j hj => by simp)
    simpa using h

/-- C2 witness: two sections, an identity finder, an initial state holding a
stray control and a stale processed marker; both calls agree and both mount
exactly two controls. -/
theorem insertButtons_idempotent_witness :
    (insertButtons (fun _ i => some i) (fun _ => true) [secIntro, secIntroWs]
        { buttons := ["old"], domButtons := ["stray"], processed := [5] } =
      insertButtons (fun _ i => some i) (fun _ => true) [secIntro, secIntroWs]
        { buttons := [], domButtons := [], processed := [] }) ∧
    (getButtonCount (insertButtons (fun _ i => some i) (fun _ => true) [secIntro, secIntroWs]
        { buttons := ["old"], domButtons := ["stray"], processed := [5] }) = 2) :=
  ⟨insertButtons_idempotent.1 (fun _ i => some i) (fun _ => true) [secIntro, secIntroWs]
      { buttons := ["old"], domButtons := ["stray"], processed := [5] }
      { buttons := [], domButtons := [], processed := [] },
   (insertButtons_idempotent.2.2 (fun _ i => some i) (fun _ => true) [secIntro, secIntroWs]
      { buttons := ["old"], domButtons := ["stray"], processed := [5] }
      (fun j _ => ⟨j, rfl, rfl⟩)
      (fun j k _ _ h h2 hjk hfj hfk => by
        cases hfj
        cases hfk
        exact hjk)).1⟩

/-- C7: navigation-change detection is idempotent in the URL.  Checking the
same resolved URL twice equals checking it once; two checks of an unchanged
URL grow the invocation log by at most one round of callbacks; and a check
whose URL equals the last observed URL is a strict no-op. -/
theorem checkNavigationChange_idempotent :
    (∀ (s : SpaState) (u : String),
      checkNavigationChange u (checkNavigationChange u s) = checkNavigationChange u s) ∧
    (∀ (s : SpaState) (u : String),
      (checkNavigationChange u (checkNavigationChange u s)).navLog.length ≤
        s.navLog.length + s.callbacks) ∧
    (∀ (s : SpaState) (u : String), u = s.lastUrl → checkNavigationChange u s = s) := by
  have hstep : ∀ (s : SpaState) (u : String),
      checkNavigationChange u (checkNavigationChange u s) = checkNavigationChange u s := by
    intro s u
    by_cases h : u = s.lastUrl
    · have e : checkNavigationChange u s = s := by
        unfold checkNavigationChange
        rw [if_neg (not_not_intro h)]
      rw [e]
      exact e
    · have e : checkNavigationChange u s =
          { lastUrl := u, callbacks := s.callbacks,
            navLog := s.navLog ++ List.replicate s.callbacks u } := by
        unfold checkNavigationChange
        rw [if_pos h]
      rw [e]
      unfold checkNavigationChange
      rw [if_neg (not_not_intro rfl)]
  refine ⟨hstep, ?_, ?_⟩
  · intro s u
    rw [hstep s u]
    by_cases h : u = s.lastUrl
    · unfold checkNavigationChange
      rw [if_neg (not_not_intro h)]
      omega
    · unfold checkNavigationChange
      rw [if_pos h]
      simp
  · intro s u h
    unfold checkNavigationChange
    rw [if_neg (not_not_intro h)]

/-- C7 witness: a second notification with the unchanged URL is a no-op. -/
theorem checkNavigationChange_idempotent_witness :
    checkNavigationChange "https://deepwiki.com/a"
      { lastUrl := "https://deepwiki.com/a", callbacks := 1, navLog := [] } =
      { lastUrl := "https://deepwiki.com/a", callbacks := 1, navLog := [] } :=
  checkNavigationChange_idempotent.2.2
    { lastUrl := "https://deepwiki.com/a", callbacks := 1, navLog := [] }
    "https://deepwiki.com/a" rfl

/-- The wait loop never resolves later than the timeout. -/
theorem waitLoop_resolvedAt_le (timeout : Nat) :
    ∀ muts : List (Nat × Bool), (waitLoop timeout muts).resolvedAt ≤ timeout := by
  intro muts
  induction muts with
  | nil => simp [waitLoop]
  | cons p rest ih =>
    obtain ⟨t, m⟩ := p
    unfold waitLoop
    by_cases h : t < timeout
    · rw [if_pos h]
      by_cases hm : m = true
      · rw [if_pos hm]
        exact Nat.le_of_lt h
      · rw [if_neg hm]
        exact ih
    · rw [if_neg h]

/-- The resolution time of the wait loop is the timeout or the time of one of
the delivered (pre-timeout) mutation batches. -/
theorem waitLoop_resolvedAt_mem (timeout : Nat) :
    ∀ muts : List (Nat × Bool), (waitLoop timeout muts).resolvedAt = timeout ∨
      ∃ p ∈ muts, p.1 = (waitLoop timeout muts).resolvedAt ∧ p.1 < timeout := by
  intro muts
  induction muts with
  | nil => left; rfl
  | cons p rest ih =>
    obtain ⟨t, m⟩ := p
    unfold waitLoop
    by_cases h : t < timeout
    · rw [if_pos h]
      by_cases hm : m = true
      · rw [if_pos hm]
        right
        exact ⟨(t, m), List.mem_cons_self _ _, rfl, h⟩
      · rw [if_neg hm]
        cases ih with
        | inl h2 => left; exact h2
        | inr h2 =>
          obtain ⟨q, hq, hq1, hq2⟩ := h2
          right
          exact ⟨q, List.mem_cons_of_mem _ hq, hq1, hq2⟩
    · rw [if_neg h]
      left; rfl

/-- With time-ordered mutation batches, every observer callback runs no later
than the resolution time and strictly before the timeout. -/
theorem waitLoop_callbacks (timeout : Nat) :
    ∀ muts : List (Nat × Bool), List.Pairwise (fun a b => a.1 ≤ b.1) muts →
      ∀ t ∈ (waitLoop timeout muts).callbackTimes,
        t ≤ (waitLoop timeout muts).resolvedAt ∧ t < timeout := by
  intro muts
  induction muts with
  | nil =>
    intro _ t ht
    simp [waitLoop] at ht
  | cons p rest ih =>
    obtain ⟨t0, m⟩ := p
    intro hsort t ht
    rw [List.pairwise_cons] at hsort
    obtain ⟨hle, hsort2⟩ := hsort
    unfold waitLoop at ht ⊢
    by_cases h : t0 < timeout
    · rw [if_pos h] at ht ⊢
      by_cases hm : m = true
      · rw [if_pos hm] at ht ⊢
        dsimp only at ht ⊢
        rw [List.mem_singleton] at ht
        subst ht
        exact ⟨Nat.le_refl t, h⟩
      · rw [if_neg hm] at ht ⊢
        dsimp only at ht ⊢
        rcases List.mem_cons.mp ht with h1 | h1
        · subst h1
          refine ⟨?_, h⟩
          rcases waitLoop_resolvedAt_mem timeout rest with h2 | ⟨q, hq, hq1, _⟩
          · rw [h2]; omega
          · rw [← hq1]; exact hle q hq
        · exact ih hsort2 t h1
    · rw [if_neg h] at ht ⊢
      simp at ht

/-- With time-ordered mutation batches, the wait loop resolves true exactly
when some batch delivered before the timeout matches. -/
theorem waitLoop_result_iff (timeout : Nat) :
    ∀ muts : List (Nat × Bool), List.Pairwise (fun a b => a.1 ≤ b.1) muts →
      ((waitLoop timeout muts).result = true ↔
        ∃ p ∈ muts, p.1 < timeout ∧ p.2 = true) := by
  intro muts
  induction muts with
  | nil =>
    intro _
    simp [waitLoop]
  | cons p rest ih =>
    obtain ⟨t0, m⟩ := p
    intro hsort
    rw [List.pairwise_cons] at hsort
    obtain ⟨hle, hsort2⟩ := hsort
    unfold waitLoop
    by_cases h : t0 < timeout
    · rw [if_pos h]
      by_cases hm : m = true
      · rw [if_pos hm]
        constructor
        · intro _
          exact ⟨(t0, m), List.mem_cons_self _ _, h, hm⟩
        · intro _
          rfl
      · rw [if_neg hm]
        dsimp only
        rw [ih hsort2]
        constructor
        · rintro ⟨q, hq, hq1, hq2⟩
          exact ⟨q, List.mem_cons_of_mem _ hq, hq1, hq2⟩
        · rintro ⟨q, hq, hq1, hq2⟩
          rcases List.mem_cons.mp hq with heq | hq3
          · exfalso
            rw [heq] at hq2
            exact hm hq2
          · exact ⟨q, hq3, hq1, hq2⟩
    · rw [if_neg h]
      constructor
      · intro hh
        exact absurd hh (by simp)
      · rintro ⟨q, hq, hq1, hq2⟩
        exfalso
        rcases List.mem_cons.mp hq with heq | hq3
        · rw [heq] at hq1
          exact h hq1
        · have := hle q hq3
          omega

/-- C6: `waitForElement` resolves true immediately (with no observer) when
the selector already matches; it never resolves later than the timeout; no
observer callback runs after the resolution time (the observer is
disconnected before resolving, in every case); and, for time-ordered
mutation batches, it resolves true exactly when the selector matches
initially or some batch delivered before the timeout makes it match. -/
theorem waitForElement_spec :
    (∀ (timeout : Nat) (muts : List (Nat × Bool)),
      waitForElement true timeout muts =
        { result := true, resolvedAt := 0, callbackTimes := [] }) ∧
    (∀ (matchesNow : Bool) (timeout : Nat) (muts : List (Nat × Bool)),
      (waitForElement matchesNow timeout muts).resolvedAt ≤ timeout) ∧
    (∀ (matchesNow : Bool) (timeout : Nat) (muts : List (Nat × Bool)),
      List.Pairwise (fun a b => a.1 ≤ b.1) muts →
      ∀ t ∈ (waitForElement matchesNow timeout muts).callbackTimes,
        t ≤ (waitForElement matchesNow timeout muts).resolvedAt ∧ t < timeout) ∧
    (∀ (matchesNow : Bool) (timeout : Nat) (muts : List (Nat × Bool)),
      List.Pairwise (fun a b => a.1 ≤ b.1) muts →
      ((waitForElement matchesNow timeout muts).result = true ↔
        matchesNow = true ∨ ∃ p ∈ muts, p.1 < timeout ∧ p.2 = true)) := by
  refine ⟨?_, ?_, ?_, ?_⟩
  · intro timeout muts
    rfl
  · intro matchesNow timeout muts
    unfold waitForElement
    by_cases hm : matchesNow = true
    · rw [if_pos hm]
      exact Nat.zero_le timeout
    · rw [if_neg hm]
      exact waitLoop_resolvedAt_le timeout muts
  · intro matchesNow timeout muts hsort t ht
    unfold waitForElement at ht ⊢
    by_cases hm : matchesNow = true
    · rw [if_pos hm] at ht
      simp at ht
    · rw [if_neg hm] at ht ⊢
      exact waitLoop_callbacks timeout muts hsort t ht
  · intro matchesNow timeout muts hsort
    unfold waitForElement
    by_cases hm : matchesNow = true
    · rw [if_pos hm]
      simp [hm]
    · rw [if_neg hm]
      rw [waitLoop_result_iff timeout muts hsort]
      constructor
      · intro h
        exact Or.inr h
      · rintro (h | h)
        · exact absurd h hm
        · exact h

/-- C6 witness: a non-matching batch at 100 ms, a matching batch at 200 ms, a
10000 ms timeout — the characterization applies and the callback at 100 ms
precedes resolution. -/
theorem waitForElement_spec_witness :
    ((waitForElement false 10000 [(100, false), (200, true)]).result = true ↔
      false = true ∨ ∃ p ∈ [(100, false), (200, true)], p.1 < 10000 ∧ p.2 = true) ∧
    (100 ≤ (waitForElement false 10000 [(100, false), (200, true)]).resolvedAt ∧
      100 < 10000) :=
  ⟨waitForElement_spec.2.2.2 false 10000 [(100, false), (200, true)] (by decide),
   waitForElement_spec.2.2.1 false 10000 [(100, false), (200, true)] (by decide)
     100 (by decide)⟩

/-- C8: the re-entrancy guard of `initialize`.  A call made while a pass is
running performs no stage at all (no container lookup, no extraction, no
mounting) and returns immediately; a call that enters the body leaves the
flag cleared when it finishes, whatever the page state and whichever stage
fails or throws; hence a later invocation proceeds into the body. -/
theorem initializePass_reentrancy_guard :
    (∀ env : InitEnv, initializePass env true = ([], true)) ∧
    (∀ env : InitEnv,
      InitAction.findContainer ∉ (initializePass env true).1 ∧
      InitAction.extract ∉ (initializePass env true).1 ∧
      InitAction.insertButtons ∉ (initializePass env true).1) ∧
    (∀ env : InitEnv, (initializePass env false).2 = false) ∧
    (∀ env env2 : InitEnv,
      (initializePass env2 (initializePass env false).2).1 = initializeBody env2) := by
  refine ⟨fun env => rfl, fun env => ?_, fun env => rfl, fun env env2 => rfl⟩
  refine ⟨?_, ?_, ?_⟩ <;> simp [initializePass]

/-- C10: `execute` of the add-heading-section use case returns a structured
result (the model is a total function; failures carry one of the four codes
by the type of `AddError`).  The duplicate check is purely id-based: when the
input passes validation and entity construction and a stored section already
has the computed id, the result is an `INVALID_INPUT` failure and
`addSection` is not called; a stored section with identical source URL,
level and title but a different id does not block persistence; and
`addSection` is called exactly when validation, construction and the id
check all pass. -/
theorem executeAdd_id_based_duplicates :
    (∀ (env : JsEnv) (repo : RepoState) (addOutcome : Option Thrown) (input : AddInput)
        (s : HeadingSection),
      validateInput env input = .ok () →
      createSectionFromInput env input = .ok s →
      sectionExists repo s.sectionId = true →
      executeAdd env repo addOutcome input =
        { result := .err duplicateIdError, addCalled := false, stored := repo.stored }) ∧
    (∀ (env : JsEnv) (repo : RepoState) (input : AddInput) (s t : HeadingSection),
      validateInput env input = .ok () →
      createSectionFromInput env input = .ok s →
      sectionExists repo s.sectionId = false →
      t ∈ repo.stored → t.sourceUrl = s.sourceUrl → t.level = s.level →
      t.titleText = s.titleText →
      executeAdd env repo none input =
        { result := .ok s.sectionId, addCalled := true, stored := repo.stored ++ [s] }) ∧
    (∀ (env : JsEnv) (repo : RepoState) (addOutcome : Option Thrown) (input : AddInput),
      (executeAdd env repo addOutcome input).addCalled = true →
      validateInput env input = .ok () ∧
      ∃ s, createSectionFromInput env input = .ok s ∧
        sectionExists repo s.sectionId = false) := by
  refine ⟨?_, ?_, ?_⟩
  · intro env repo addOutcome input s hv hc hex
    unfold executeAdd
    rw [hv]
    dsimp only
    rw [hc]
    dsimp only
    rw [if_pos hex]
  · intro env repo input s t hv hc hex _ _ _ _
    unfold executeAdd
    rw [hv]
    dsimp only
    rw [hc]
    dsimp only
    rw [if_neg (by rw [hex]; exact Bool.false_ne_true)]
  · intro env repo addOutcome input hcalled
    unfold executeAdd at hcalled
    cases hv : validateInput env input with
    | error e =>
      rw [hv] at hcalled
      simp at hcalled
    | ok u =>
      rw [hv] at hcalled
      dsimp only at hcalled
      cases hc : createSectionFromInput env input with
      | error e =>
        rw [hc] at hcalled
        simp at hcalled
      | ok s =>
        rw [hc] at hcalled
        dsimp only at hcalled
        by_cases hex : sectionExists repo s.sectionId = true
        · rw [if_pos hex] at hcalled
          simp at hcalled
        · have hex2 : sectionExists repo s.sectionId = false := by
            cases hb : sectionExists repo s.sectionId
            · rfl
            · exact absurd hb hex
          cases u
          exact ⟨rfl, s, rfl, hex2⟩

/-- C10 witness: against a repository holding `secStoredOld`, an input whose
custom id collides is rejected as a duplicate without calling `addSection`,
while the input with identical source URL, level and title but a fresh id is
persisted. -/
theorem executeAdd_id_based_duplicates_witness :
    (executeAdd env0 repoW none inputDup =
      { result := .err duplicateIdError, addCalled := false, stored := repoW.stored }) ∧
    (executeAdd env0 repoW none inputFresh =
      { result := .ok sFresh.sectionId, addCalled := true,
        stored := repoW.stored ++ [sFresh] }) :=
  ⟨executeAdd_id_based_duplicates.1 env0 repoW none inputDup sDup rfl rfl (by decide),
   executeAdd_id_based_duplicates.2.1 env0 repoW inputFresh sFresh secStoredOld
     rfl rfl (by decide) (by decide) rfl rfl rfl⟩

end DeepWikiPP
